import Mathlib

/-!
Shallow embedding of the nexus-agent session-handoff core.

The source is a Node.js service. The parts embedded here are:
  - server/services/qrService.js        (token issue / validate)
  - server/services/contextEngine.js    (rule-based intent extraction)
  - server/services/recommendationEngine.js
  - server/services/socketManager.js    (mobile / kiosk event handlers)
  - routes for QR generation and chat messages

Modelling conventions:
  - Redis and MongoDB are modelled as association lists keyed by strings.
    Redis TTL expiry shows up as plain absence of the key (a token not in
    the store is exactly what an expired token looks like to `validateQR`).
  - `crypto.createHmac('sha256', secret).update(m).digest('hex')` is an
    external primitive; it is modelled as an abstract parameter
    `mac : String → String → String` (secret, message ↦ hex digest).
  - `Buffer.from(s, 'hex')` follows Node semantics: pairs of hex nibbles,
    case-insensitive, decoding truncated at the first invalid character,
    a dangling odd nibble dropped.  `crypto.timingSafeEqual` throws when
    the two buffers have different lengths; the thrown error is caught by
    the surrounding try/catch in `validateQR`, which returns null without
    reaching the deletes.
  - JS timestamps (`Date.now()`) are `Nat` parameters; JS falsy checks on
    strings (`if (!x)`) become `x = ""` tests; `null`/`undefined` become
    `Option`/dedicated constructors.
-/

namespace Nexus

/-! ### Association-list store (model of the Redis / MongoDB keyspaces) -/

def alGet {α : Type} : List (String × α) → String → Option α
  | [], _ => none
  | (k, v) :: rest, key => if k = key then some v else alGet rest key

def alSet {α : Type} : List (String × α) → String → α → List (String × α)
  | [], key, v => [(key, v)]
  | (k, w) :: rest, key, v =>
    if k = key then (key, v) :: rest else (k, w) :: alSet rest key v

def alDel {α : Type} : List (String × α) → String → List (String × α)
  | [], _ => []
  | (k, w) :: rest, key =>
    if k = key then alDel rest key else (k, w) :: alDel rest key

theorem alGet_set_self {α : Type} (l : List (String × α)) (k : String) (v : α) :
    alGet (alSet l k v) k = some v := by
  induction l with
  | nil => simp [alGet, alSet]
  | cons hd tl ih =>
    obtain ⟨k0, v0⟩ := hd
    by_cases h : k0 = k
    · simp [alSet, h, alGet]
    · simp [alSet, h, alGet, ih]

theorem alGet_set_ne {α : Type} (l : List (String × α)) (k k' : String) (v : α)
    (h : k' ≠ k) : alGet (alSet l k v) k' = alGet l k' := by
  have h' : k ≠ k' := Ne.symm h
  induction l with
  | nil => simp [alGet, alSet, h']
  | cons hd tl ih =>
    obtain ⟨k0, v0⟩ := hd
    by_cases h0 : k0 = k
    · subst h0
      simp [alSet, alGet, h']
    · by_cases h1 : k0 = k'
      · simp [alSet, h0, alGet, h1, h]
      · simp [alSet, h0, alGet, h1, ih]

theorem alGet_del {α : Type} (l : List (String × α)) (k k' : String) :
    alGet (alDel l k) k' = if k' = k then none else alGet l k' := by
  induction l with
  | nil => simp [alGet, alDel]
  | cons hd tl ih =>
    obtain ⟨k0, v0⟩ := hd
    by_cases h0 : k0 = k
    · subst h0
      rw [show alDel ((k0, v0) :: tl) k0 = alDel tl k0 by simp [alDel]]
      rw [ih]
      by_cases h1 : k' = k0
      · simp [h1]
      · have h1' : k0 ≠ k' := Ne.symm h1
        simp [h1, alGet, h1']
    · rw [show alDel ((k0, v0) :: tl) k = (k0, v0) :: alDel tl k by simp [alDel, h0]]
      by_cases h1 : k' = k
      · have hk0 : k0 ≠ k' := fun hh => h0 (hh.trans h1)
        subst h1
        simp [alGet, hk0, ih, h0]
      · by_cases h2 : k0 = k'
        · simp [alGet, h2, h1]
        · simp [alGet, h2, ih, h1]

/-! ### Small string helpers shared by the embedded services -/

def lowerChars (s : String) : List Char := s.data.map Char.toLower

def lowerStr (s : String) : String := String.mk (lowerChars s)

/-- JS `String.prototype.trim`. -/
def trimStr (s : String) : String :=
  String.mk (((s.data.dropWhile Char.isWhitespace).reverse.dropWhile Char.isWhitespace).reverse)

/-- JSON string escaping as performed by `JSON.stringify` on the identifier
strings that occur in the payloads (quote and backslash; control characters
do not occur in UUID / hex-digest / identifier material, and the payload
string is in any case used symmetrically at issue and validate time). -/
def escJson : List Char → List Char
  | [] => []
  | c :: cs => if c = '"' ∨ c = '\\' then '\\' :: c :: escJson cs else c :: escJson cs

def escapeJson (s : String) : String := String.mk (escJson s.data)

/-- `JSON.stringify(payload, Object.keys(payload).sort())` for the payload
`{ qrId, sessionId, timestamp }`: keys serialized in sorted order. -/
def payloadString (qrId sessionId : String) (timestamp : Nat) : String :=
  "\x7b\"qrId\":\"" ++ escapeJson qrId ++ "\",\"sessionId\":\"" ++ escapeJson sessionId
    ++ "\",\"timestamp\":" ++ toString timestamp ++ "\x7d"

def joinSep (sep : String) : List String → String
  | [] => ""
  | [x] => x
  | x :: xs => x ++ sep ++ joinSep sep xs

/-- `JSON.stringify` of a flat object of string fields, in field order. -/
def serializeFields (fields : List (String × String)) : String :=
  "\x7b" ++ joinSep ","
    (fields.map fun kv => "\"" ++ escapeJson kv.1 ++ "\":\"" ++ escapeJson kv.2 ++ "\"")
    ++ "\x7d"

/-! ### Node hex decoding and timing-safe comparison -/

/-- Value of one hex nibble, accepting both cases as `Buffer.from(_, 'hex')` does. -/
def hexVal (c : Char) : Option Nat :=
  if '0' ≤ c ∧ c ≤ '9' then some (c.toNat - '0'.toNat)
  else if 'a' ≤ c ∧ c ≤ 'f' then some (c.toNat - 'a'.toNat + 10)
  else if 'A' ≤ c ∧ c ≤ 'F' then some (c.toNat - 'A'.toNat + 10)
  else none

/-- `Buffer.from(s, 'hex')` as a byte list: pairs of nibbles, truncated at the
first invalid character; a dangling final nibble is dropped. -/
def hexDecodeChars : List Char → List Nat
  | c1 :: c2 :: rest =>
    match hexVal c1, hexVal c2 with
    | some hi, some lo => (16 * hi + lo) :: hexDecodeChars rest
    | _, _ => []
  | _ => []

def hexDecodeStr (s : String) : List Nat := hexDecodeChars s.data

/-! ### Token service (qrService.js) -/

structure QREntry where
  sessionId : String
  timestamp : Nat
deriving DecidableEq

abbrev QRStore := List (String × QREntry)

def qrKey (qrId : String) : String := "qr:" ++ qrId

/-- Result record of `generateQR`: `qrFields` is the object literal
`{ qrId, signature }` that is JSON-serialized into `qrData`, the exact string
rendered into the QR image by `QRCode.toDataURL` (the base64 PNG rendering
itself is external presentation). -/
structure QRResult where
  qrId : String
  qrFields : List (String × String)
  qrData : String
  expiresAt : Nat
  signature : String
deriving DecidableEq

/-- qrService.generateQR.  `qrId` stands for the freshly drawn `uuidv4()` and
`ts` for `Date.now()`; both are externally supplied nondeterminism.  The Redis
`setex` with TTL 300 s is the `alSet`; expiry is modelled as later absence. -/
def generateQR (mac : String → String → String) (secret sessionId qrId : String)
    (ts : Nat) (store : QRStore) : Except String (QRResult × QRStore) :=
  if sessionId = "" then .error "sessionId is required"
  else if secret = "" then .error "JWT_SECRET is not configured"
  else
    let signature := mac secret (payloadString qrId sessionId ts)
    let fields := [("qrId", qrId), ("signature", signature)]
    .ok ({ qrId := qrId, qrFields := fields, qrData := serializeFields fields,
           expiresAt := ts + 300000, signature := signature },
         alSet store (qrKey qrId) { sessionId := sessionId, timestamp := ts })

/-- qrService.validateQR.  Returns the recovered sessionId (or `none`) along
with the store after the call.  The branch structure mirrors the source:
string-length mismatch deletes and returns null; a `timingSafeEqual` throw
(buffers of unequal byte length after hex decoding) is caught and returns null
without reaching the deletes; byte-equal signatures succeed and delete;
byte-different signatures of full length delete and return null. -/
def validateQR (mac : String → String → String) (secret qrId signature : String)
    (store : QRStore) : Option String × QRStore :=
  if qrId = "" ∨ signature = "" then (none, store)
  else if secret = "" then (none, store)
  else
    match alGet store (qrKey qrId) with
    | none => (none, store)
    | some entry =>
      let expected := mac secret (payloadString qrId entry.sessionId entry.timestamp)
      if signature.length ≠ expected.length then (none, alDel store (qrKey qrId))
      else if (hexDecodeStr signature).length ≠ (hexDecodeStr expected).length then
        (none, store)
      else if hexDecodeStr signature = hexDecodeStr expected then
        (some entry.sessionId, alDel store (qrKey qrId))
      else (none, alDel store (qrKey qrId))

/-- Inversion of a successful `generateQR`. -/
theorem generateQR_ok (mac : String → String → String) (secret sessionId qrId : String)
    (ts : Nat) (store : QRStore) (res : QRResult) (s' : QRStore)
    (h : generateQR mac secret sessionId qrId ts store = .ok (res, s')) :
    sessionId ≠ "" ∧ secret ≠ "" ∧
    res = { qrId := qrId,
            qrFields := [("qrId", qrId), ("signature", mac secret (payloadString qrId sessionId ts))],
            qrData := serializeFields [("qrId", qrId), ("signature", mac secret (payloadString qrId sessionId ts))],
            expiresAt := ts + 300000,
            signature := mac secret (payloadString qrId sessionId ts) } ∧
    s' = alSet store (qrKey qrId) { sessionId := sessionId, timestamp := ts } := by
  by_cases h1 : sessionId = ""
  · simp [generateQR, h1] at h
  · by_cases h2 : secret = ""
    · simp [generateQR, h1, h2] at h
    · refine ⟨h1, h2, ?_, ?_⟩ <;>
      · simp [generateQR, h1, h2] at h
        simp [← h.1, ← h.2]

/-! ### Word-boundary pattern matching (the contextEngine regexes)

Every regex in contextEngine.js is of one of two shapes:
  - an alternation of `\b`-delimited keywords/phrases (phrases joined by
    `\s+`, with `\s*` phrases expanded into their two alternatives), under
    the `i` flag — the tested text is always already lower-cased;
  - a leftmost-match number extraction (the budget patterns), hand-compiled
    below pattern by pattern.
JS `\w` is `[A-Za-z0-9_]`; `\s` is modelled by `Char.isWhitespace`. -/

def isWordChar (c : Char) : Bool := c.isAlphanum || c = '_'

def skipSpaces0 : List Char → List Char
  | [] => []
  | c :: cs => if c.isWhitespace then skipSpaces0 cs else c :: cs

def skipSpaces1 : List Char → Option (List Char)
  | [] => none
  | c :: cs => if c.isWhitespace then some (skipSpaces0 cs) else none

/-- Match a literal character sequence, returning the remainder. -/
def dropSeq : List Char → List Char → Option (List Char)
  | [], cs => some cs
  | _ :: _, [] => none
  | p :: ps, c :: cs => if c = p then dropSeq ps cs else none

/-- Match a phrase: words joined by `\s+`. -/
def matchPhrase : List (List Char) → List Char → Option (List Char)
  | [], cs => some cs
  | [w], cs => dropSeq w cs
  | w :: ws, cs =>
    match dropSeq w cs with
    | none => none
    | some rest =>
      match skipSpaces1 rest with
      | none => none
      | some rest2 => matchPhrase ws rest2

/-- `\b` after a match: end of input or a non-word character. -/
def boundaryOk : List Char → Bool
  | [] => true
  | c :: _ => !(isWordChar c)

def testPhraseAt (ws : List (List Char)) (cs : List Char) : Bool :=
  match matchPhrase ws cs with
  | some rest => boundaryOk rest
  | none => false

/-- `\b(phrase)\b` tested at every position; the boolean carries whether the
previous character was a word character (so `\b` holds before here). -/
def testPhraseFrom (ws : List (List Char)) : Bool → List Char → Bool
  | _, [] => false
  | prevWord, c :: cs =>
    (!prevWord && testPhraseAt ws (c :: cs)) || testPhraseFrom ws (isWordChar c) cs

/-- `.test` of an alternation of `\b`-delimited phrases; each phrase is given
as its list of words. -/
def testRe (alts : List (List String)) (cs : List Char) : Bool :=
  alts.any fun ws => testPhraseFrom (ws.map String.data) false cs

/-! #### Budget number patterns -/

def takeDigits : List Char → List Char × List Char
  | [] => ([], [])
  | c :: cs =>
    if c.isDigit then
      let p := takeDigits cs
      (c :: p.1, p.2)
    else ([], c :: cs)

def digitsToNat (ds : List Char) : Nat :=
  ds.foldl (fun acc c => 10 * acc + (c.toNat - '0'.toNat)) 0

/-- Greedy `(\d+)` at this position. -/
def numAt (cs : List Char) : Option Nat :=
  let p := takeDigits cs
  if p.1 = [] then none else some (digitsToNat p.1)

/-- Leftmost application of a match-at-position function. -/
def scanFirst (f : List Char → Option Nat) : List Char → Option Nat
  | [] => f []
  | c :: cs =>
    match f (c :: cs) with
    | some n => some n
    | none => scanFirst f cs

/-- `/\$(\d+)/i` at a position. -/
def dollarNumAt : List Char → Option Nat
  | '$' :: rest => numAt rest
  | _ => none

/-- `/(\d+)\s*dollars?/i` at a position (greedy digits; no backtrack can help
since `dollar` does not start with a digit or whitespace). -/
def numDollarsAt (cs : List Char) : Option Nat :=
  let p := takeDigits cs
  if p.1 = [] then none
  else
    match dropSeq "dollar".data (skipSpaces0 p.2) with
    | some _ => some (digitsToNat p.1)
    | none => none

/-- `/budget\s*(?:of|is)?\s*(\d+)/i` at a position (no `\b`: substring). -/
def budgetNumAt (cs : List Char) : Option Nat :=
  match dropSeq "budget".data cs with
  | none => none
  | some rest =>
    let r1 := skipSpaces0 rest
    let viaOf :=
      match dropSeq "of".data r1 with
      | some r => numAt (skipSpaces0 r)
      | none => none
    let viaIs :=
      match dropSeq "is".data r1 with
      | some r => numAt (skipSpaces0 r)
      | none => none
    viaOf <|> viaIs <|> numAt r1

/-- `/around\s*(\d+)/i` at a position. -/
def aroundNumAt (cs : List Char) : Option Nat :=
  match dropSeq "around".data cs with
  | some rest => numAt (skipSpaces0 rest)
  | none => none

/-- `/up\s+to\s*(\d+)/i` at a position. -/
def upToNumAt (cs : List Char) : Option Nat :=
  match dropSeq "up".data cs with
  | none => none
  | some rest =>
    match skipSpaces1 rest with
    | none => none
    | some r1 =>
      match dropSeq "to".data r1 with
      | some r2 => numAt (skipSpaces0 r2)
      | none => none

/-- `/(\d+)\s*(?:bucks?|usd)/i` at a position. -/
def numBucksAt (cs : List Char) : Option Nat :=
  let p := takeDigits cs
  if p.1 = [] then none
  else
    let r := skipSpaces0 p.2
    match dropSeq "buck".data r with
    | some _ => some (digitsToNat p.1)
    | none =>
      match dropSeq "usd".data r with
      | some _ => some (digitsToNat p.1)
      | none => none

/-- `/approximately\s*(\d+)/i` at a position. -/
def approxNumAt (cs : List Char) : Option Nat :=
  match dropSeq "approximately".data cs with
  | some rest => numAt (skipSpaces0 rest)
  | none => none

/-- The `for (const pattern of numberPatterns)` loop: first pattern whose
leftmost match captures an amount `> 0`. -/
def tryPatterns : List (List Char → Option Nat) → List Char → Option Nat
  | [], _ => none
  | p :: ps, cs =>
    match scanFirst p cs with
    | some n => if n > 0 then some n else tryPatterns ps cs
    | none => tryPatterns ps cs

def budgetNumberPatterns : List (List Char → Option Nat) :=
  [dollarNumAt, numDollarsAt, budgetNumAt, aroundNumAt, upToNumAt, numBucksAt, approxNumAt]

/-! ### contextEngine.js data model -/

/-- `parsedIntent.budget`: a JS number, the string `'flexible'`, or absent. -/
inductive BudgetVal
  | num (n : Nat)
  | flexible
  | undef
deriving DecidableEq

structure Intent where
  occasion : Option String
  style : Option String
  season : Option String
  budget : BudgetVal
  urgency : Option String
  preferences : List String
deriving DecidableEq

/-- The `{}` parsedIntent a fresh Session is created with. -/
def emptyIntent : Intent :=
  { occasion := none, style := none, season := none, budget := .undef,
    urgency := none, preferences := [] }

/-- JS truthiness of an optional string field. -/
def truthyStr : Option String → Bool
  | some s => s ≠ ""
  | none => false

def strVal : Option String → String
  | some s => s
  | none => ""

/-- `previousValue || default` for string-valued fields. -/
def orElseStr (v : Option String) (d : String) : String :=
  match v with
  | some s => if s = "" then d else s
  | none => d

/-- `previousValue || 'flexible'` for the budget field (`0` is falsy). -/
def orElseBudget : BudgetVal → BudgetVal
  | .num n => if n = 0 then .flexible else .num n
  | .flexible => .flexible
  | .undef => .flexible

/-! ### contextEngine.js extractors -/

def extractOccasion (cs : List Char) (previousValue : Option String) : String :=
  if cs = [] then orElseStr previousValue "other"
  else if testRe [["wedding"], ["marriage"], ["ceremony"], ["bridal"], ["groom"]] cs then "wedding"
  else if testRe [["work"], ["office"], ["business"], ["meeting"], ["interview"],
                  ["professional"], ["corporate"]] cs then "work"
  else if testRe [["party"], ["celebration"], ["event"], ["gala"], ["festival"],
                  ["gathering"]] cs then "party"
  else if testRe [["date"], ["romantic"], ["dinner"], ["evening", "out"],
                  ["night", "out"]] cs then "date"
  else if testRe [["casual"], ["everyday"], ["weekend"], ["daily"], ["regular"]] cs then "casual"
  else orElseStr previousValue "other"

def extractStyle (cs : List Char) (previousValue : Option String) : String :=
  if cs = [] then orElseStr previousValue "casual"
  else if testRe [["formal"], ["suit"], ["blazer"], ["dress", "shirt"], ["tuxedo"],
                  ["tie"]] cs then "formal"
  else if testRe [["business"], ["professional"], ["corporate"], ["executive"]] cs then "business"
  else if testRe [["trendy"], ["fashionable"], ["stylish"], ["modern"], ["contemporary"],
                  ["hip"]] cs then "trendy"
  else if testRe [["classic"], ["traditional"], ["timeless"], ["vintage"],
                  ["conservative"]] cs then "classic"
  else if testRe [["sport"], ["athletic"], ["active"], ["gym"], ["workout"],
                  ["athleisure"]] cs then "sporty"
  else if testRe [["casual"], ["relaxed"], ["comfortable"], ["easygoing"],
                  ["laid", "back"]] cs then "casual"
  else orElseStr previousValue "casual"

def extractSeason (cs : List Char) (previousValue : Option String) : String :=
  if cs = [] then orElseStr previousValue "all-season"
  else if testRe [["summer"], ["hot"], ["lightweight"], ["breathable"], ["beach"],
                  ["sunny"], ["warm", "weather"]] cs then "summer"
  else if testRe [["winter"], ["cold"], ["warm"], ["layer"], ["layering"], ["snow"],
                  ["freezing"], ["insulated"], ["wool"], ["fleece"]] cs then "winter"
  else if testRe [["spring"], ["bloom"], ["mild"]] cs then "spring"
  else if testRe [["fall"], ["autumn"], ["cooler"], ["crisp"]] cs then "fall"
  else orElseStr previousValue "all-season"

/-- `mid\s*range` is expanded into its two alternatives `midrange` / `mid range`. -/
def extractBudget (cs : List Char) (previousValue : BudgetVal) : BudgetVal :=
  if cs = [] then orElseBudget previousValue
  else
    match tryPatterns budgetNumberPatterns cs with
    | some n => .num n
    | none =>
      if testRe [["cheap"], ["affordable"], ["budget"], ["inexpensive"], ["economical"],
                 ["low", "price"]] cs then .num 100
      else if testRe [["expensive"], ["luxury"], ["premium"], ["high", "end"],
                      ["designer"], ["upscale"]] cs then .num 500
      else if testRe [["midrange"], ["mid", "range"], ["moderate"], ["medium"]] cs then .num 200
      else orElseBudget previousValue

def extractUrgency (cs : List Char) (previousValue : Option String) : String :=
  if cs = [] then orElseStr previousValue "flexible"
  else if testRe [["today"], ["right", "now"], ["asap"], ["as", "soon", "as", "possible"],
                  ["immediately"], ["urgently"], ["right", "away"],
                  ["this", "evening"]] cs then "today"
  else if testRe [["this", "week"], ["soon"], ["urgent"], ["quickly"], ["fast"],
                  ["needed", "soon"], ["asap"], ["hurry"]] cs then "this-week"
  else orElseStr previousValue "flexible"

def colorWords : List String :=
  ["black", "white", "blue", "red", "green", "grey", "gray", "brown", "navy",
   "beige", "tan", "burgundy"]

def materialWords : List String :=
  ["cotton", "wool", "linen", "silk", "polyester", "denim", "leather", "suede"]

def fitWords : List String :=
  ["slim", "loose", "fitted", "relaxed", "tailored", "baggy", "skinny"]

/-- First alternative of the word list matching with boundaries at this
position (at most one can match, since all the listed words consist of word
characters). -/
def firstWordMatchAt (words : List String) (cs : List Char) : Option String :=
  words.findSome? fun w =>
    match dropSeq w.data cs with
    | some rest => if boundaryOk rest then some w else none
    | none => none

/-- All `\b`-delimited occurrences of the word list, in text order, as
`text.match(/.../gi)` produces them (overlaps are impossible because a match
consists solely of word characters). -/
def scanAllWords (words : List String) : Bool → List Char → List String
  | _, [] => []
  | prevWord, c :: cs =>
    match if prevWord then none else firstWordMatchAt words (c :: cs) with
    | some w => w :: scanAllWords words (isWordChar c) cs
    | none => scanAllWords words (isWordChar c) cs

/-- The `forEach` push loop: append items not already in `base` or `acc`. -/
def pushUnique (base : List String) : List String → List String → List String
  | acc, [] => acc
  | acc, x :: xs =>
    if x ∈ base ∨ x ∈ acc then pushUnique base acc xs
    else pushUnique base (acc ++ [x]) xs

def extractPreferences (cs : List Char) (previousPreferences : List String) : List String :=
  let newColors := colorWords.filter fun col =>
    testRe [[col]] cs && decide (col ∉ previousPreferences)
  let withMaterials := pushUnique previousPreferences newColors (scanAllWords materialWords false cs)
  let withFits := pushUnique previousPreferences withMaterials (scanAllWords fitWords false cs)
  previousPreferences ++ withFits

def capitalize (s : String) : String :=
  match s.data with
  | [] => ""
  | c :: cs => String.mk (c.toUpper :: cs)

def generateTags (intent : Intent) : List String :=
  (if truthyStr intent.occasion && strVal intent.occasion ≠ "other" then
    ["#" ++ capitalize (strVal intent.occasion)]
      ++ (if strVal intent.occasion = "wedding" then ["#Wedding"] else [])
   else [])
  ++ (if truthyStr intent.style then ["#" ++ capitalize (strVal intent.style)] else [])
  ++ (if truthyStr intent.season && strVal intent.season ≠ "all-season" then
       [if strVal intent.season = "summer" then "#SummerWear"
        else if strVal intent.season = "winter" then "#WinterWear"
        else "#" ++ capitalize (strVal intent.season) ++ "Wear"]
      else [])
  ++ (if intent.urgency = some "today" then ["#Urgent"] else [])
  ++ (match intent.budget with
      | .num n => if n > 300 then ["#Premium"] else if n < 100 then ["#Budget"] else []
      | _ => [])

def generateSummary (intent : Intent) : String :=
  let parts : List String :=
    (if truthyStr intent.occasion && strVal intent.occasion ≠ "other" then
      ["for " ++ strVal intent.occasion] else [])
    ++ (if truthyStr intent.style then [strVal intent.style ++ " style"] else [])
    ++ (if truthyStr intent.season && strVal intent.season ≠ "all-season" then
         ["suitable for " ++ strVal intent.season] else [])
    ++ (match intent.budget with
        | .num n => ["within $" ++ toString n ++ " budget"]
        | .flexible => ["flexible budget"]
        | .undef => [])
    ++ (if truthyStr intent.urgency && strVal intent.urgency ≠ "flexible" then
         (if strVal intent.urgency = "today" then ["needed today"]
          else if strVal intent.urgency = "this-week" then ["needed this week"]
          else [])
        else [])
    ++ (if intent.preferences ≠ [] then
         ["preferences: " ++ joinSep ", " (intent.preferences.take 3)] else [])
  if parts = [] then "Looking for clothing items"
  else "Looking " ++ joinSep ", " parts

/-- The per-field "meaningful value" test in calculateConfidence. -/
def fieldMeaningful : Option String → Bool
  | some s => s ≠ "" && s ≠ "other" && s ≠ "flexible" && s ≠ "all-season" && s ≠ "casual"
  | none => false

def calculateConfidence (intent : Intent) : ℚ :=
  let occScore : ℚ := if fieldMeaningful intent.occasion then 1 else 0
  let styleScore : ℚ :=
    if fieldMeaningful intent.style then 1
    else if intent.style = some "casual" then 1 / 2
    else 0
  let seasonScore : ℚ := if fieldMeaningful intent.season then 1 else 0
  let budgetScore : ℚ :=
    match intent.budget with
    | .num n => if n ≠ 0 then 1 else 0
    | _ => 0
  let urgencyScore : ℚ := if fieldMeaningful intent.urgency then 1 else 0
  let base := occScore + styleScore + seasonScore + budgetScore + urgencyScore
  let score := if intent.preferences ≠ [] then base + 1 / 5 else base
  let maxScore : ℚ := if intent.preferences ≠ [] then 5 + 1 / 5 else 5
  min (19 / 20) (max (1 / 10) (score / maxScore))

/-! ### contextEngine.js parseUserMessage -/

structure ChatMessage where
  text : String
  sender : String
  timestamp : Nat
deriving DecidableEq

structure ParseResult where
  intent : Intent
  tags : List String
  summary : String
  confidence : ℚ
deriving DecidableEq

structure PrevContext where
  text : List Char
  occasion : Option String
  style : Option String
  season : Option String
  budget : BudgetVal
  urgency : Option String
  preferences : List String

def joinSpaceChars : List (List Char) → List Char
  | [] => []
  | [x] => x
  | x :: xs => x ++ ' ' :: joinSpaceChars xs

def extractPreviousContext (history : List ChatMessage) : PrevContext :=
  let base : PrevContext :=
    { text := [], occasion := none, style := none, season := none,
      budget := .undef, urgency := none, preferences := [] }
  if history.isEmpty then base
  else
    let msgs := ((history.filter fun m => lowerStr m.sender = "user").map
      fun m => lowerChars m.text).filter fun t => t ≠ []
    let text := joinSpaceChars msgs
    if text = [] then { base with text := text }
    else
      { text := text,
        occasion := some (extractOccasion text none),
        style := some (extractStyle text none),
        season := some (extractSeason text none),
        budget := extractBudget text .undef,
        urgency := some (extractUrgency text none),
        preferences := extractPreferences text [] }

def parseUserMessage (message : String) (history : List ChatMessage) : ParseResult :=
  let text := lowerChars message
  let prev := extractPreviousContext history
  let combined := if prev.text ≠ [] then prev.text ++ ' ' :: text else text
  let intent : Intent :=
    { occasion := some (extractOccasion combined prev.occasion),
      style := some (extractStyle combined prev.style),
      season := some (extractSeason combined prev.season),
      budget := extractBudget combined prev.budget,
      urgency := some (extractUrgency combined prev.urgency),
      preferences := extractPreferences combined prev.preferences }
  { intent := intent, tags := generateTags intent,
    summary := generateSummary intent, confidence := calculateConfidence intent }

/-! ### recommendationEngine.js -/

/-- Product record as persisted in the catalog (image reference and ids are
irrelevant to the engine's logic and elided; absent JS fields are the default
values the engine substitutes: `tags || []`, `stockCount || 0`,
`category || 'Unknown'` handled at use sites). Prices are exact rationals. -/
structure Product where
  name : String
  category : String
  price : ℚ
  tags : List String
  stockCount : Nat
  inStock : Bool
deriving DecidableEq

/-- A scored product, as the engine decorates catalog entries. -/
abbrev PScored := Product × Nat

structure RecResult where
  products : List PScored
  explanations : List String
  confidence : ℚ
deriving DecidableEq

def emptyRec : RecResult := { products := [], explanations := [], confidence := 0 }

/-- Tags generated from intent for matching (no `#`); mirror of
contextEngine.generateTags. -/
def generateTagsFromIntent (intent : Intent) : List String :=
  (if truthyStr intent.occasion && strVal intent.occasion ≠ "other" then
    [capitalize (strVal intent.occasion)]
      ++ (if strVal intent.occasion = "wedding" then ["Wedding"] else [])
   else [])
  ++ (if truthyStr intent.style then [capitalize (strVal intent.style)] else [])
  ++ (if truthyStr intent.season && strVal intent.season ≠ "all-season" then
       [if strVal intent.season = "summer" then "SummerWear"
        else if strVal intent.season = "winter" then "WinterWear"
        else capitalize (strVal intent.season) ++ "Wear"]
      else [])
  ++ (if intent.urgency = some "today" then ["Urgent"] else [])
  ++ (match intent.budget with
      | .num n => if n > 300 then ["Premium"] else if n < 100 then ["Budget"] else []
      | _ => [])

/-- Price matching score (0–30 points). -/
def calculatePriceScore (price : ℚ) (budget : BudgetVal) : Nat :=
  match budget with
  | .num n =>
    if 0 < n then
      let priceDiff := price - (n : ℚ)
      let percentOver := priceDiff / (n : ℚ) * 100
      if priceDiff ≤ 0 then 30
      else if percentOver ≤ 10 then 20
      else if percentOver ≤ 20 then 10
      else 0
    else 0
  | .flexible => 15
  | .undef => 0

/-- Match score for a product (0–100 before the diversity bonus). -/
def calculateProductScore (p : Product) (intent : Intent) (intentTags : List String)
    (ignoreBudget : Bool) : Nat :=
  let productTags := p.tags.map lowerStr
  let matching := (intentTags.map lowerStr).filter fun t => t ∈ productTags
  let tagScore := min 40 (matching.length * 10)
  let priceScore := if ignoreBudget then 0 else calculatePriceScore p.price intent.budget
  let stockScore :=
    if p.stockCount > 5 then 20
    else if p.stockCount ≥ 3 then 15
    else if p.stockCount ≥ 1 then 10
    else 0
  tagScore + priceScore + stockScore

/-- The sort comparator: score descending, stockCount descending as tiebreak
(a stable insertion sort, as `Array.prototype.sort` is stable). -/
def insertScored (x : PScored) : List PScored → List PScored
  | [] => [x]
  | y :: ys =>
    if y.2 < x.2 ∨ (y.2 = x.2 ∧ y.1.stockCount < x.1.stockCount) then x :: y :: ys
    else y :: insertScored x ys

def sortScored : List PScored → List PScored
  | [] => []
  | x :: xs => insertScored x (sortScored xs)

/-- The loop body of applyCategoryDiversity: `count` is `result.length`,
`cats` the categories already granted the bonus. -/
def diversityPass (limit : Nat) : List String → Nat → List PScored → List PScored
  | _, _, [] => []
  | cats, count, (p, sc) :: rest =>
    let cat := if p.category = "" then "Unknown" else p.category
    if cat ∉ cats ∧ count < limit then
      (p, sc + 10) :: diversityPass limit (cat :: cats) (count + 1) rest
    else
      (p, sc) :: diversityPass limit cats (count + 1) rest

def applyCategoryDiversity (products : List PScored) (limit : Nat) : List PScored :=
  (sortScored (diversityPass limit [] 0 products)).take limit

def generateExplanation (p : Product) (intent : Intent) : String :=
  let reasons : List String :=
    (if truthyStr intent.style then [strVal intent.style ++ " style"] else [])
    ++ (if truthyStr intent.occasion && strVal intent.occasion ≠ "other" then
         ["suitable for " ++ strVal intent.occasion ++ " occasions"] else [])
    ++ (if truthyStr intent.season && strVal intent.season ≠ "all-season" then
         ["perfect for " ++ strVal intent.season] else [])
    ++ (match intent.budget with
        | .num n =>
          if p.price - (n : ℚ) ≤ 0 then ["within your $" ++ toString n ++ " budget"]
          else if p.price - (n : ℚ) ≤ (n : ℚ) * (1 / 10) then
            ["slightly over budget but great value"]
          else []
        | _ => [])
    ++ (if p.stockCount > 5 then ["in stock and ready"] else [])
  match reasons with
  | [] => "This " ++ p.name ++ " is a great option for you."
  | [r] => "This " ++ p.name ++ " matches your " ++ r ++ "."
  | r :: rest =>
    "This " ++ p.name ++ " matches your " ++ r ++ " and is " ++ joinSep ", " rest ++ "."

def isNumBudget : BudgetVal → Bool
  | .num _ => true
  | _ => false

/-- recommendationEngine.getRecommendations.  `db` is the result of the
`Product.find({inStock: true, stockCount: {$gt: 0}})` query: either the full
catalog (the in-stock filter is applied here, mirroring the query) or a store
error, which the surrounding try/catch converts to the empty result.
`intentOpt = none` models a null / non-object `parsedIntent`.  Our `Intent`
record never carries a `tags` field, so the `parsedIntent.tags ? ... :`
branch always falls through to `generateTagsFromIntent`, as it does for every
intent produced by contextEngine.
The scoring pipeline on a non-empty in-stock product list is split out as
`recommendCore`. -/
def recommendCore (intent : Intent) (products : List Product) (limit : Nat) : RecResult :=
  let intentTags := generateTagsFromIntent intent
  let scored := products.map fun p => (p, calculateProductScore p intent intentTags false)
  let filtered := sortScored (scored.filter fun pc => decide (pc.2 ≥ 20))
  let filtered2 :=
    if filtered.length < 3 ∧ isNumBudget intent.budget then
      sortScored ((products.map fun p =>
        (p, calculateProductScore p intent intentTags true)).filter fun pc => decide (pc.2 ≥ 20))
    else filtered
  let diverse := applyCategoryDiversity filtered2 limit
  let top := diverse.take limit
  let explanations := top.map fun pc => generateExplanation pc.1 intent
  let avg : ℚ :=
    if top.length > 0 then ((top.map fun pc => (pc.2 : ℚ)).sum) / (top.length : ℚ) else 0
  { products := top, explanations := explanations, confidence := min 1 (avg / 100) }

def getRecommendations (db : Except String (List Product)) (intentOpt : Option Intent)
    (limit : Nat) : RecResult :=
  match intentOpt, db with
  | none, _ => emptyRec
  | some _, .error _ => emptyRec
  | some intent, .ok catalog =>
    let products := catalog.filter fun p => p.inStock && decide (p.stockCount > 0)
    if products.isEmpty then emptyRec
    else recommendCore intent products limit

/-! ### Session model (models/Session.js) and connection registry -/

inductive SessionStatus
  | active
  | transferred
  | expired
deriving DecidableEq

/-- A persisted Session document.  `parsedIntent` is stored through the
Mongoose cast `castParsedIntent` below: `parsedIntentSchema` has no `season`
path, so a stored session's `parsedIntent.season` is always `none` — the
field exists on the Lean record (it is shared with the extractor's output
type) but every write site forces it to `none`. -/
structure Session where
  sessionId : String
  userId : String
  conversationHistory : List ChatMessage
  parsedIntent : Intent
  tags : List String
  qrCode : Option String
  qrExpiry : Option Nat
  status : SessionStatus
deriving DecidableEq

/-- The Mongoose strict-mode cast applied on `session.parsedIntent = ...`
against models/Session.js's `parsedIntentSchema`: the schema declares paths
`occasion, style, budget, urgency, preferences` but no `season`, and strict
mode (the default) silently drops unknown paths, so the stored intent never
carries `season`.  The declared String paths are trimmed on set
(`trim: true`); `budget`'s `min: 0` is satisfied by every extracted budget
(a natural number). -/
def castParsedIntent (i : Intent) : Intent :=
  { occasion := i.occasion.map trimStr,
    style := i.style.map trimStr,
    season := none,
    budget := i.budget,
    urgency := i.urgency.map trimStr,
    preferences := i.preferences }

abbrev SessionDB := List (String × Session)

/-- The Redis key-value map `socket:mobile:{userId} / socket:kiosk:{kioskId}
→ socket.id`. -/
abbrev Registry := List (String × String)

def mobileKey (userId : String) : String := "socket:mobile:" ++ userId

def kioskKey (kioskId : String) : String := "socket:kiosk:" ++ kioskId

/-- The shared mutable state the handlers act on: the Mongo session
collection, the Redis `qr:*` keyspace and the Redis socket registry. -/
structure SysState where
  sessions : SessionDB
  qr : QRStore
  reg : Registry
deriving DecidableEq

/-- `Array.from(new Set([...existingTags, ...newTags]))`: order-preserving
first-occurrence deduplication of the concatenation. -/
def dedupAux (seen : List String) : List String → List String
  | [] => []
  | x :: xs => if x ∈ seen then dedupAux seen xs else x :: dedupAux (x :: seen) xs

def mergeTags (a b : List String) : List String := dedupAux [] (a ++ b)

/-! ### socketManager.js handlers -/

inductive MobileReply
  | err (msg : String)
  | ai (message : String) (intent : Intent) (tags : List String)
      (recommendations : List PScored) (confidence : ℚ)

inductive KioskReply
  | invalidQR (msg : String)
  | sessionData (sessionId userId : String) (intent : Intent) (tags : List String)
      (history : List ChatMessage) (recommendations : List PScored)
      (explanations : List String) (confidence : ℚ)

inductive QRReply
  | badRequest
  | notFound
  | serverError (msg : String)
  | ok (res : QRResult)

/-- The `mobile:message` handler.  `now` models `new Date()`/`Date.now()` and
`socketId` the connected socket's id; `catalog` is the recommendation
engine's product query (see `getRecommendations`). -/
def handleMobileMessage (catalog : Except String (List Product))
    (sessionId userId message socketId : String) (now : Nat) (st : SysState) :
    SysState × MobileReply :=
  if sessionId = "" ∨ userId = "" ∨ message = "" then
    (st, .err "sessionId, userId, and message are required")
  else
    let reg' := alSet st.reg (mobileKey userId) socketId
    let session :=
      match alGet st.sessions sessionId with
      | some s => s
      | none =>
        { sessionId := sessionId, userId := userId, conversationHistory := [],
          parsedIntent := emptyIntent, tags := [], qrCode := none, qrExpiry := none,
          status := .active }
    let hist := session.conversationHistory
      ++ [{ text := message, sender := "user", timestamp := now }]
    let parsed := parseUserMessage message hist
    let session' :=
      { session with
          conversationHistory := hist,
          parsedIntent := castParsedIntent parsed.intent,
          tags := mergeTags session.tags parsed.tags }
    let recs := getRecommendations catalog (some parsed.intent) 3
    ({ sessions := alSet st.sessions sessionId session', qr := st.qr, reg := reg' },
     .ai (if parsed.summary = "" then "Got it. I will keep this in mind." else parsed.summary)
       parsed.intent session'.tags recs.products parsed.confidence)

/-- The `mobile:generateQR` handler: generates the token first, then updates
the session's qrCode/qrExpiry only if the session exists. -/
def handleGenerateQRSocket (mac : String → String → String)
    (secret sessionId qrId : String) (ts : Nat) (st : SysState) : SysState × QRReply :=
  if sessionId = "" then (st, .badRequest)
  else
    match generateQR mac secret sessionId qrId ts st.qr with
    | .error e => (st, .serverError e)
    | .ok (res, qr') =>
      let sessions' :=
        match alGet st.sessions sessionId with
        | some s =>
          alSet st.sessions sessionId
            { s with qrCode := some res.qrId, qrExpiry := some res.expiresAt }
        | none => st.sessions
      ({ sessions := sessions', qr := qr', reg := st.reg }, .ok res)

/-- `POST /api/qr/generate`: verifies the session exists before issuing. -/
def handleGenerateQRRoute (mac : String → String → String)
    (secret sessionId qrId : String) (ts : Nat) (sessions : SessionDB) (qr : QRStore) :
    (SessionDB × QRStore) × QRReply :=
  if sessionId = "" then ((sessions, qr), .badRequest)
  else
    match alGet sessions sessionId with
    | none => ((sessions, qr), .notFound)
    | some s =>
      match generateQR mac secret sessionId qrId ts qr with
      | .error e => ((sessions, qr), .serverError e)
      | .ok (res, qr') =>
        ((alSet sessions sessionId
            { s with qrCode := some res.qrId, qrExpiry := some res.expiresAt }, qr'),
         .ok res)

/-- `kiosk:scanQR`, step 2: a validated sessionId is resolved against the
session collection; on success the status is flipped to `transferred` and the
full session snapshot (with fresh recommendations at the kiosk's larger
limit 5) is emitted. -/
def kioskScanWithSession (catalog : Except String (List Product)) (st : SysState)
    (qr2 : QRStore) (reg' : Registry) (sessionId : String) : SysState × KioskReply :=
  match alGet st.sessions sessionId with
  | none => ({ sessions := st.sessions, qr := qr2, reg := reg' }, .invalidQR "Session not found")
  | some s =>
    let s' := { s with status := .transferred }
    let recs := getRecommendations catalog (some s.parsedIntent) 5
    ({ sessions := alSet st.sessions sessionId s', qr := qr2, reg := reg' },
     .sessionData s.sessionId s.userId s.parsedIntent s.tags s.conversationHistory
       recs.products recs.explanations recs.confidence)

/-- `kiosk:scanQR`, step 1: dispatch on the Token Service's verdict. -/
def kioskScanValidated (catalog : Except String (List Product)) (st : SysState)
    (qr2 : QRStore) (reg' : Registry) : Option String → SysState × KioskReply
  | none =>
    ({ sessions := st.sessions, qr := qr2, reg := reg' }, .invalidQR "Invalid or expired QR code")
  | some sessionId => kioskScanWithSession catalog st qr2 reg' sessionId

/-- The `kiosk:scanQR` handler. -/
def handleKioskScan (catalog : Except String (List Product))
    (mac : String → String → String) (secret qrId signature kioskId socketId : String)
    (st : SysState) : SysState × KioskReply :=
  if qrId = "" ∨ signature = "" then (st, .invalidQR "qrId and signature are required")
  else
    let reg' := if kioskId = "" then st.reg else alSet st.reg (kioskKey kioskId) socketId
    let vres := validateQR mac secret qrId signature st.qr
    kioskScanValidated catalog st vres.2 reg' vres.1

/-- The `mobile:identify` handler. -/
def handleMobileIdentify (userId socketId : String) (st : SysState) : SysState :=
  if userId = "" then st
  else { sessions := st.sessions, qr := st.qr, reg := alSet st.reg (mobileKey userId) socketId }

/-- The `kiosk:identify` handler. -/
def handleKioskIdentify (kioskId socketId : String) (st : SysState) : SysState :=
  if kioskId = "" then st
  else { sessions := st.sessions, qr := st.qr, reg := alSet st.reg (kioskKey kioskId) socketId }

/-- getSocketByUserId for the mobile namespace: Redis lookup, then resolving
the stored socket id in the namespace's live socket set. -/
def getSocketByUserId (reg : Registry) (liveSockets : List String) (userId : String) :
    Option String :=
  if userId = "" then none
  else
    match alGet reg (mobileKey userId) with
    | none => none
    | some sid => if sid ∈ liveSockets then some sid else none

inductive ChatReply
  | badRequest
  | ok (aiResponse : String) (intent : Intent) (tags : List String)
      (recommendations : List PScored)

/-- `POST /api/chat/message` (routes/chat.js): same update as the socket
handler, plus the AI response is appended to the history before saving. -/
def handleChatMessageRoute (catalog : Except String (List Product))
    (sessionId userId message : String) (now : Nat) (sessions : SessionDB) :
    SessionDB × ChatReply :=
  if sessionId = "" ∨ userId = "" ∨ message = "" then (sessions, .badRequest)
  else if trimStr message = "" then (sessions, .badRequest)
  else
    let session :=
      match alGet sessions sessionId with
      | some s => s
      | none =>
        { sessionId := sessionId, userId := userId, conversationHistory := [],
          parsedIntent := emptyIntent, tags := [], qrCode := none, qrExpiry := none,
          status := .active }
    let hist := session.conversationHistory
      ++ [{ text := message, sender := "user", timestamp := now }]
    let parsed := parseUserMessage message hist
    let aiText := if parsed.summary = "" then "Got it. I will keep this in mind." else parsed.summary
    let session' :=
      { session with
          conversationHistory := hist ++ [{ text := aiText, sender := "ai", timestamp := now }],
          parsedIntent := castParsedIntent parsed.intent,
          tags := mergeTags session.tags parsed.tags }
    let recs := getRecommendations catalog (some parsed.intent) 3
    (alSet sessions sessionId session',
     .ok aiText parsed.intent session'.tags recs.products)

/-! ### Sequences of handler events -/

/-- One inbound event of the handoff core; the per-event parameters carry the
external nondeterminism (fresh uuid, wall clock, catalog snapshot). -/
inductive Op
  | mobileMessage (catalog : Except String (List Product))
      (sessionId userId message socketId : String) (now : Nat)
  | mobileGenerateQR (mac : String → String → String) (secret sessionId qrId : String) (ts : Nat)
  | kioskScan (catalog : Except String (List Product)) (mac : String → String → String)
      (secret qrId signature kioskId socketId : String)
  | mobileIdentify (userId socketId : String)
  | kioskIdentify (kioskId socketId : String)

def stepOp (st : SysState) : Op → SysState
  | .mobileMessage catalog sessionId userId message socketId now =>
    (handleMobileMessage catalog sessionId userId message socketId now st).1
  | .mobileGenerateQR mac secret sessionId qrId ts =>
    (handleGenerateQRSocket mac secret sessionId qrId ts st).1
  | .kioskScan catalog mac secret qrId signature kioskId socketId =>
    (handleKioskScan catalog mac secret qrId signature kioskId socketId st).1
  | .mobileIdentify userId socketId => handleMobileIdentify userId socketId st
  | .kioskIdentify kioskId socketId => handleKioskIdentify kioskId socketId st

def applyOps (ops : List Op) (st : SysState) : SysState := ops.foldl stepOp st

/-- A sequence of further `validateQR` calls against the token store. -/
def runValidates (mac : String → String → String) (secret : String)
    (ops : List (String × String)) (store : QRStore) : QRStore :=
  ops.foldl (fun s op => (validateQR mac secret op.1 op.2 s).2) store

/-! ### Supporting lemmas -/

theorem validateQR_absent (mac : String → String → String) (secret qrId sig : String)
    (store : QRStore) (h : alGet store (qrKey qrId) = none) :
    validateQR mac secret qrId sig store = (none, store) := by
  unfold validateQR
  by_cases h1 : qrId = "" ∨ sig = ""
  · simp [h1]
  · by_cases h2 : secret = ""
    · simp [h1, h2]
    · simp [h1, h2, h]

theorem validateQR_preserves_absent (mac : String → String → String)
    (secret qrId sig k : String) (store : QRStore)
    (h : alGet store k = none) :
    alGet (validateQR mac secret qrId sig store).2 k = none := by
  unfold validateQR
  by_cases h1 : qrId = "" ∨ sig = ""
  · simpa [h1] using h
  · by_cases h2 : secret = ""
    · simpa [h1, h2] using h
    · cases hg : alGet store (qrKey qrId) with
      | none => simpa [h1, h2, hg] using h
      | some entry =>
        have hdel : alGet (alDel store (qrKey qrId)) k = none := by
          rw [alGet_del]
          by_cases hk : k = qrKey qrId <;> simp [hk, h]
        by_cases h3 : sig.length ≠ (mac secret (payloadString qrId entry.sessionId entry.timestamp)).length
        · simpa [h1, h2, hg, h3] using hdel
        · by_cases h4 : (hexDecodeStr sig).length ≠
              (hexDecodeStr (mac secret (payloadString qrId entry.sessionId entry.timestamp))).length
          · simpa [h1, h2, hg, h3, h4] using h
          · by_cases h5 : hexDecodeStr sig =
                hexDecodeStr (mac secret (payloadString qrId entry.sessionId entry.timestamp))
            · simpa [h1, h2, hg, h3, h4, h5] using hdel
            · simpa [h1, h2, hg, h3, h4, h5] using hdel

theorem runValidates_preserves_absent (mac : String → String → String) (secret k : String)
    (ops : List (String × String)) (store : QRStore) (h : alGet store k = none) :
    alGet (runValidates mac secret ops store) k = none := by
  induction ops generalizing store with
  | nil => simpa [runValidates] using h
  | cons op rest ih =>
    have step := validateQR_preserves_absent mac secret op.1 op.2 k store h
    simpa [runValidates, List.foldl_cons] using ih _ step

theorem dedupAux_props (l : List String) :
    ∀ seen, (dedupAux seen l).Nodup ∧ ∀ x ∈ dedupAux seen l, x ∉ seen := by
  induction l with
  | nil => intro seen; simp [dedupAux]
  | cons x xs ih =>
    intro seen
    by_cases hx : x ∈ seen
    · simpa [dedupAux, hx] using ih seen
    · have ih' := ih (x :: seen)
      constructor
      · rw [show dedupAux seen (x :: xs) = x :: dedupAux (x :: seen) xs by simp [dedupAux, hx]]
        refine List.nodup_cons.2 ⟨?_, ih'.1⟩
        intro hmem
        exact (ih'.2 x hmem) (List.mem_cons_self x seen)
      · intro y hy
        rw [show dedupAux seen (x :: xs) = x :: dedupAux (x :: seen) xs by simp [dedupAux, hx]] at hy
        rcases List.mem_cons.1 hy with h | h
        · simpa [h] using hx
        · intro hsy
          exact (ih'.2 y h) (List.mem_cons_of_mem x hsy)

theorem mem_dedupAux (l : List String) :
    ∀ seen x, x ∈ l → x ∉ seen → x ∈ dedupAux seen l := by
  induction l with
  | nil => intro seen x hx; simp at hx
  | cons y ys ih =>
    intro seen x hx hseen
    by_cases hy : y ∈ seen
    · rw [show dedupAux seen (y :: ys) = dedupAux seen ys by simp [dedupAux, hy]]
      rcases List.mem_cons.1 hx with h | h
      · exact absurd (h ▸ hy) hseen
      · exact ih seen x h hseen
    · rw [show dedupAux seen (y :: ys) = y :: dedupAux (y :: seen) ys by simp [dedupAux, hy]]
      by_cases hxy : x = y
      · simp [hxy]
      · rcases List.mem_cons.1 hx with h | h
        · exact absurd h hxy
        · exact List.mem_cons_of_mem y
            (ih (y :: seen) x h (by simp [hxy, hseen]))

theorem mergeTags_nodup (a b : List String) : (mergeTags a b).Nodup :=
  (dedupAux_props (a ++ b) []).1

theorem mem_mergeTags_right (a b : List String) (x : String) (hx : x ∈ b) :
    x ∈ mergeTags a b :=
  mem_dedupAux (a ++ b) [] x (List.mem_append_right a hx) (by simp)

theorem dedupAux_append_of_nodup (a : List String) :
    ∀ (seen : List String) (b : List String), a.Nodup → (∀ x ∈ a, x ∉ seen) →
      ∃ suffix, dedupAux seen (a ++ b) = a ++ suffix := by
  induction a with
  | nil => intro seen b _ _; exact ⟨dedupAux seen b, by simp⟩
  | cons x xs ih =>
    intro seen b hnd hdis
    have hx : x ∉ seen := hdis x (List.mem_cons_self x xs)
    have hnd' := List.nodup_cons.1 hnd
    obtain ⟨suffix, hs⟩ := ih (x :: seen) b hnd'.2 (by
      intro y hy
      simp only [List.mem_cons]
      push_neg
      exact ⟨fun hyx => hnd'.1 (hyx ▸ hy), hdis y (List.mem_cons_of_mem x hy)⟩)
    refine ⟨suffix, ?_⟩
    rw [show (x :: xs) ++ b = x :: (xs ++ b) by simp]
    rw [show dedupAux seen (x :: (xs ++ b)) = x :: dedupAux (x :: seen) (xs ++ b) by
      simp [dedupAux, hx]]
    simp [hs]

theorem mergeTags_extends (a b : List String) (h : a.Nodup) :
    ∃ suffix, mergeTags a b = a ++ suffix :=
  dedupAux_append_of_nodup a [] b h (by simp)

theorem length_insertScored (x : PScored) (l : List PScored) :
    (insertScored x l).length = l.length + 1 := by
  induction l with
  | nil => simp [insertScored]
  | cons y ys ih =>
    unfold insertScored
    by_cases h : y.2 < x.2 ∨ (y.2 = x.2 ∧ y.1.stockCount < x.1.stockCount)
    · simp [h]
    · simp [h, ih]

theorem length_sortScored (l : List PScored) : (sortScored l).length = l.length := by
  induction l with
  | nil => rfl
  | cons x xs ih => simp [sortScored, length_insertScored, ih]

/-- A validate call presenting exactly the stored MAC succeeds and deletes. -/
theorem validateQR_correct (mac : String → String → String) (secret sessionId qrId : String)
    (ts : Nat) (store : QRStore)
    (hq : qrId ≠ "") (hm : mac secret (payloadString qrId sessionId ts) ≠ "")
    (hsec : secret ≠ "")
    (hget : alGet store (qrKey qrId) = some { sessionId := sessionId, timestamp := ts }) :
    validateQR mac secret qrId (mac secret (payloadString qrId sessionId ts)) store
      = (some sessionId, alDel store (qrKey qrId)) := by
  unfold validateQR
  rw [if_neg (by simp [hq, hm])]
  rw [if_neg hsec]
  rw [hget]
  simp

/-! ### Claim theorems -/

/-- C1: for every issued token, the first `validate` call with the correct
signature succeeds exactly once — it returns the stored sessionId and deletes
the store entry — and every subsequent `validate` call with the same tokenId
(after any further sequence of validate calls, and even with the correct
signature) returns NotFound.  The hypotheses record that the freshly drawn
`qrId` is non-empty (uuidv4 always is) and that the HMAC hex digest is
non-empty (a SHA-256 hex digest has 64 characters). -/
theorem validateQR_single_use
    (mac : String → String → String) (secret sessionId qrId : String) (ts : Nat)
    (store : QRStore) (res : QRResult) (s1 : QRStore)
    (hq : qrId ≠ "")
    (hm : mac secret (payloadString qrId sessionId ts) ≠ "")
    (hgen : generateQR mac secret sessionId qrId ts store = .ok (res, s1)) :
    validateQR mac secret qrId res.signature s1 = (some sessionId, alDel s1 (qrKey qrId))
    ∧ ∀ (ops : List (String × String)) (sig2 : String),
        (validateQR mac secret qrId sig2
          (runValidates mac secret ops (alDel s1 (qrKey qrId)))).1 = none := by
  obtain ⟨hsid, hsec, hres, hs1⟩ := generateQR_ok mac secret sessionId qrId ts store res s1 hgen
  have hsig : res.signature = mac secret (payloadString qrId sessionId ts) := by rw [hres]
  constructor
  · rw [hsig, hs1]
    exact validateQR_correct mac secret sessionId qrId ts _ hq hm hsec (alGet_set_self _ _ _)
  · intro ops sig2
    have h0 : alGet (alDel s1 (qrKey qrId)) (qrKey qrId) = none := by
      rw [alGet_del]; simp
    have h1 := runValidates_preserves_absent mac secret (qrKey qrId) ops _ h0
    rw [validateQR_absent mac secret qrId sig2 _ h1]

def macAB : String → String → String := fun _ _ => "ab"

theorem validateQR_single_use_witness :
    validateQR macAB "k" "t1" "ab" (alSet [] (qrKey "t1") { sessionId := "S1", timestamp := 0 })
      = (some "S1", alDel (alSet [] (qrKey "t1") { sessionId := "S1", timestamp := 0 }) (qrKey "t1"))
    ∧ (validateQR macAB "k" "t1" "ab"
        (runValidates macAB "k" [("t1", "ab")]
          (alDel (alSet [] (qrKey "t1") { sessionId := "S1", timestamp := 0 }) (qrKey "t1")))).1
      = none := by
  have h := validateQR_single_use macAB "k" "S1" "t1" 0 []
    { qrId := "t1", qrFields := [("qrId", "t1"), ("signature", "ab")],
      qrData := serializeFields [("qrId", "t1"), ("signature", "ab")],
      expiresAt := 300000, signature := "ab" }
    (alSet [] (qrKey "t1") { sessionId := "S1", timestamp := 0 })
    (by decide) (by decide) (by rfl)
  exact ⟨h.1, h.2 [("t1", "ab")] "ab"⟩

/-- C2 counterexample: an issued token whose signature is the hex digest
`"ab"`; presenting the different string `"AB"` — which hex-decodes to the same
byte — does NOT return NotFound: `validateQR` returns the sessionId, because
`Buffer.from(_, 'hex')` decodes case-insensitively before the byte-wise
timing-safe comparison. -/
theorem validateQR_tamper_counterexample :
    generateQR macAB "k" "S2" "t2" 5 []
      = Except.ok ({ qrId := "t2", qrFields := [("qrId", "t2"), ("signature", "ab")],
                     qrData := serializeFields [("qrId", "t2"), ("signature", "ab")],
                     expiresAt := 300005, signature := "ab" },
                   alSet [] (qrKey "t2") { sessionId := "S2", timestamp := 5 })
    ∧ ("AB" : String) ≠ "ab"
    ∧ (validateQR macAB "k" "t2" "AB"
        (alSet [] (qrKey "t2") { sessionId := "S2", timestamp := 5 })).1 = some "S2" := by
  exact ⟨rfl, by decide, by decide⟩

/-- C2 (amended): for an issued token, a presented signature whose hex
decoding differs from the stored signature's returns NotFound; the entry is
burned — so that a following call with the correct signature also returns
NotFound — exactly when the presented string's length differs from the
original's or its hex decoding has the same byte length as the original's;
when the length matches but the hex decoding is shorter (invalid hex
characters), `timingSafeEqual` throws, the catch returns NotFound without
deleting, and a following call with the correct signature still succeeds. -/
theorem validateQR_tamper_amended
    (mac : String → String → String) (secret sessionId qrId sig2 : String) (ts : Nat)
    (store : QRStore) (res : QRResult) (s1 : QRStore)
    (hq : qrId ≠ "")
    (hm : mac secret (payloadString qrId sessionId ts) ≠ "")
    (hgen : generateQR mac secret sessionId qrId ts store = .ok (res, s1))
    (hs : sig2 ≠ "")
    (hd : hexDecodeStr sig2 ≠ hexDecodeStr res.signature) :
    (validateQR mac secret qrId sig2 s1).1 = none
    ∧ ((validateQR mac secret qrId res.signature (validateQR mac secret qrId sig2 s1).2).1
        = if sig2.length ≠ res.signature.length
             ∨ (hexDecodeStr sig2).length = (hexDecodeStr res.signature).length
          then none else some sessionId) := by
  obtain ⟨hsid, hsec, hres, hs1⟩ := generateQR_ok mac secret sessionId qrId ts store res s1 hgen
  have hsig : res.signature = mac secret (payloadString qrId sessionId ts) := by rw [hres]
  have hget : alGet s1 (qrKey qrId) = some { sessionId := sessionId, timestamp := ts } := by
    rw [hs1]; exact alGet_set_self _ _ _
  have hstep : validateQR mac secret qrId sig2 s1
      = if sig2.length ≠ res.signature.length then (none, alDel s1 (qrKey qrId))
        else if (hexDecodeStr sig2).length = (hexDecodeStr res.signature).length then
          (none, alDel s1 (qrKey qrId))
        else (none, s1) := by
    unfold validateQR
    rw [if_neg (by simp [hq, hs])]
    rw [if_neg hsec]
    rw [hget]
    simp only [← hsig]
    by_cases h3 : sig2.length ≠ res.signature.length
    · simp [h3]
    · by_cases h4 : (hexDecodeStr sig2).length = (hexDecodeStr res.signature).length
      · simp [h3, h4, hd]
      · simp [h3, h4]
  constructor
  · rw [hstep]
    by_cases h3 : sig2.length ≠ res.signature.length
    · simp [h3]
    · by_cases h4 : (hexDecodeStr sig2).length = (hexDecodeStr res.signature).length
      · simp [h3, h4]
      · simp [h3, h4]
  · rw [hstep]
    by_cases h3 : sig2.length ≠ res.signature.length
    · have h0 : alGet (alDel s1 (qrKey qrId)) (qrKey qrId) = none := by
        rw [alGet_del]; simp
      simp [h3, validateQR_absent mac secret qrId res.signature _ h0]
    · by_cases h4 : (hexDecodeStr sig2).length = (hexDecodeStr res.signature).length
      · have h0 : alGet (alDel s1 (qrKey qrId)) (qrKey qrId) = none := by
          rw [alGet_del]; simp
        simp [h3, h4, validateQR_absent mac secret qrId res.signature _ h0]
      · have hc := validateQR_correct mac secret sessionId qrId ts s1 hq hm hsec hget
        rw [← hsig] at hc
        simp [h3, h4, hc]

theorem validateQR_tamper_amended_witness :
    (validateQR macAB "k" "t1" "cd"
      (alSet [] (qrKey "t1") { sessionId := "S1", timestamp := 0 })).1 = none
    ∧ ((validateQR macAB "k" "t1" "ab"
        (validateQR macAB "k" "t1" "cd"
          (alSet [] (qrKey "t1") { sessionId := "S1", timestamp := 0 })).2).1
        = if ("cd" : String).length ≠ ("ab" : String).length
             ∨ (hexDecodeStr "cd").length = (hexDecodeStr "ab").length
          then none else some "S1") := by
  have h := validateQR_tamper_amended macAB "k" "S1" "t1" "cd" 0 []
    { qrId := "t1", qrFields := [("qrId", "t1"), ("signature", "ab")],
      qrData := serializeFields [("qrId", "t1"), ("signature", "ab")],
      expiresAt := 300000, signature := "ab" }
    (alSet [] (qrKey "t1") { sessionId := "S1", timestamp := 0 })
    (by decide) (by decide) (by rfl) (by decide) (by decide)
  exact ⟨h.1, h.2⟩

def mac0F : String → String → String := fun _ _ => "0f"

/-- C3 counterexample: the store contains the entry for `t3`, the presented
signature `"0F"` is not equal (as a string) to the recomputed MAC `"0f"`, yet
`validateQR` returns the stored sessionId — refuting the claimed
"if and only if the presented signature equals the recomputed MAC". -/
theorem validateQR_iff_counterexample :
    alGet (alSet ([] : QRStore) (qrKey "t3") { sessionId := "S3", timestamp := 7 }) (qrKey "t3")
      = some { sessionId := "S3", timestamp := 7 }
    ∧ ("0F" : String) ≠ mac0F "k" (payloadString "t3" "S3" 7)
    ∧ (validateQR mac0F "k" "t3" "0F"
        (alSet [] (qrKey "t3") { sessionId := "S3", timestamp := 7 })).1 = some "S3" := by
  exact ⟨by decide, by decide, by decide⟩

/-- C3 (amended): `validateQR` returns a sessionId exactly when the shared
store holds an entry for the tokenId, the returned id is that entry's, the
call's inputs pass the non-emptiness guards, and the presented signature has
the same string length as — and hex-decodes to the same byte sequence as —
the MAC recomputed over the stored `{tokenId, sessionId, issuedAt}`.  All
failures (never issued, TTL-expired hence absent, tampered) yield the same
`none`, with no distinction among the causes. -/
theorem validateQR_characterization (mac : String → String → String)
    (secret qrId sig : String) (store : QRStore) (sid : String) :
    (validateQR mac secret qrId sig store).1 = some sid
    ↔ ∃ entry, alGet store (qrKey qrId) = some entry ∧ sid = entry.sessionId
        ∧ qrId ≠ "" ∧ sig ≠ "" ∧ secret ≠ ""
        ∧ sig.length = (mac secret (payloadString qrId entry.sessionId entry.timestamp)).length
        ∧ hexDecodeStr sig
            = hexDecodeStr (mac secret (payloadString qrId entry.sessionId entry.timestamp)) := by
  constructor
  · intro h
    by_cases h1 : qrId = "" ∨ sig = ""
    · simp [validateQR, h1] at h
    · by_cases h2 : secret = ""
      · simp [validateQR, h1, h2] at h
      · push_neg at h1
        cases hg : alGet store (qrKey qrId) with
        | none => simp [validateQR, h1, h2, hg] at h
        | some entry =>
          by_cases h3 : sig.length
              = (mac secret (payloadString qrId entry.sessionId entry.timestamp)).length
          · by_cases h5 : hexDecodeStr sig
                = hexDecodeStr (mac secret (payloadString qrId entry.sessionId entry.timestamp))
            · refine ⟨entry, rfl, ?_, h1.1, h1.2, h2, h3, h5⟩
              simp [validateQR, h1, h2, hg, h3, h5] at h
              exact h.symm
            · by_cases h4 : (hexDecodeStr sig).length
                  = (hexDecodeStr (mac secret (payloadString qrId entry.sessionId entry.timestamp))).length
              · simp [validateQR, h1, h2, hg, h3, h4, h5] at h
              · simp [validateQR, h1, h2, hg, h3, h4] at h
          · simp [validateQR, h1, h2, hg, h3] at h
  · rintro ⟨entry, hg, hsid, hq, hs, hsec, h3, h5⟩
    subst hsid
    simp [validateQR, hq, hs, hsec, hg, h3, h5]

/-- C4: the payload embedded in the rendered QR code consists of exactly the
fields `{qrId, signature}` — its serialization is what the QR image encodes —
no field is named `sessionId` / `timestamp` / `issuedAt`, and (as long as the
sessionId does not coincide with the opaque uuid or with the hex digest,
which is what the uuid/HMAC guarantee) none of the payload values is the raw
sessionId. -/
theorem generateQR_payload_fields (mac : String → String → String)
    (secret sessionId qrId : String) (ts : Nat) (store : QRStore)
    (res : QRResult) (s' : QRStore)
    (hgen : generateQR mac secret sessionId qrId ts store = .ok (res, s')) :
    res.qrFields = [("qrId", res.qrId), ("signature", res.signature)]
    ∧ res.qrData = serializeFields res.qrFields
    ∧ (∀ kv ∈ res.qrFields, kv.1 ≠ "sessionId" ∧ kv.1 ≠ "timestamp" ∧ kv.1 ≠ "issuedAt")
    ∧ (sessionId ≠ res.qrId → sessionId ≠ res.signature →
        ∀ kv ∈ res.qrFields, kv.2 ≠ sessionId) := by
  obtain ⟨hsid, hsec, hres, hs⟩ := generateQR_ok mac secret sessionId qrId ts store res s' hgen
  subst hres
  refine ⟨rfl, rfl, ?_, ?_⟩
  · intro kv hkv
    simp only [List.mem_cons, List.not_mem_nil, or_false] at hkv
    rcases hkv with h | h <;> subst h <;> exact ⟨by simp, by simp, by simp⟩
  · intro h1 h2 kv hkv
    simp only [List.mem_cons, List.not_mem_nil, or_false] at hkv
    rcases hkv with h | h <;> subst h
    · exact fun hc => h1 hc.symm
    · exact fun hc => h2 hc.symm

theorem generateQR_payload_fields_witness :
    let res : QRResult :=
      { qrId := "t4", qrFields := [("qrId", "t4"), ("signature", "ab")],
        qrData := serializeFields [("qrId", "t4"), ("signature", "ab")],
        expiresAt := 300000, signature := "ab" }
    res.qrFields = [("qrId", res.qrId), ("signature", res.signature)]
    ∧ res.qrData = serializeFields res.qrFields
    ∧ (∀ kv ∈ res.qrFields, kv.1 ≠ "sessionId" ∧ kv.1 ≠ "timestamp" ∧ kv.1 ≠ "issuedAt")
    ∧ ("S4" ≠ res.qrId → "S4" ≠ res.signature →
        ∀ kv ∈ res.qrFields, kv.2 ≠ "S4") := by
  exact generateQR_payload_fields macAB "k" "S4" "t4" 0 [] _ _ rfl

/-- One handler event never moves an existing session's status off
`transferred`. -/
theorem stepOp_preserves_transferred (op : Op) (st : SysState) (sid : String) (s : Session)
    (h : alGet st.sessions sid = some s) (hs : s.status = .transferred) :
    ∃ s', alGet (stepOp st op).sessions sid = some s' ∧ s'.status = .transferred := by
  cases op with
  | mobileMessage catalog sessionId userId message socketId now =>
    unfold stepOp handleMobileMessage
    by_cases hg : sessionId = "" ∨ userId = "" ∨ message = ""
    · simp only [hg, if_true]
      exact ⟨s, h, hs⟩
    · simp only [hg, if_false]
      by_cases he : sessionId = sid
      · subst he
        refine ⟨_, alGet_set_self _ _ _, ?_⟩
        simp [h, hs]
      · rw [alGet_set_ne _ _ _ _ fun hh => he hh.symm]
        exact ⟨s, h, hs⟩
  | mobileGenerateQR mac secret sessionId qrId ts =>
    unfold stepOp handleGenerateQRSocket
    by_cases hg : sessionId = ""
    · simp only [hg, if_true]
      exact ⟨s, h, hs⟩
    · simp only [hg, if_false]
      cases hq : generateQR mac secret sessionId qrId ts st.qr with
      | error e => exact ⟨s, h, hs⟩
      | ok pr =>
        obtain ⟨res, qr'⟩ := pr
        by_cases he : sessionId = sid
        · subst he
          rw [show alGet st.sessions sessionId = some s from h]
          refine ⟨_, alGet_set_self _ _ _, ?_⟩
          simp [hs]
        · cases hg2 : alGet st.sessions sessionId with
          | none => exact ⟨s, h, hs⟩
          | some s2 =>
            rw [alGet_set_ne _ _ _ _ fun hh => he hh.symm]
            exact ⟨s, h, hs⟩
  | kioskScan catalog mac secret qrId signature kioskId socketId =>
    simp only [stepOp, handleKioskScan]
    by_cases hg : qrId = "" ∨ signature = ""
    · simp only [hg, if_true]
      exact ⟨s, h, hs⟩
    · simp only [hg, if_false]
      cases hv : (validateQR mac secret qrId signature st.qr).1 with
      | none => exact ⟨s, h, hs⟩
      | some sessionId' =>
        simp only [kioskScanValidated, kioskScanWithSession]
        cases hg2 : alGet st.sessions sessionId' with
        | none => exact ⟨s, h, hs⟩
        | some s2 =>
          by_cases he : sessionId' = sid
          · subst he
            exact ⟨_, alGet_set_self _ _ _, rfl⟩
          · rw [alGet_set_ne _ _ _ _ fun hh => he hh.symm]
            exact ⟨s, h, hs⟩
  | mobileIdentify userId socketId =>
    unfold stepOp handleMobileIdentify
    by_cases hu : userId = "" <;> simp only [hu, if_true, if_false] <;> exact ⟨s, h, hs⟩
  | kioskIdentify kioskId socketId =>
    unfold stepOp handleKioskIdentify
    by_cases hk : kioskId = "" <;> simp only [hk, if_true, if_false] <;> exact ⟨s, h, hs⟩

/-- C5: status monotonicity — once a session's status is `transferred`, no
sequence of handler events (messages, QR generation, kiosk scans, identify
registrations) ever brings it back to `active`: the session stays present
with status `transferred`. -/
theorem status_monotonic (ops : List Op) (st : SysState) (sid : String) (s : Session)
    (h : alGet st.sessions sid = some s) (hs : s.status = .transferred) :
    ∃ s', alGet (applyOps ops st).sessions sid = some s'
      ∧ s'.status = .transferred := by
  induction ops generalizing st s with
  | nil => exact ⟨s, by simpa [applyOps] using h, hs⟩
  | cons op rest ih =>
    obtain ⟨s1, h1, hs1⟩ := stepOp_preserves_transferred op st sid s h hs
    have hrest := ih (stepOp st op) s1 h1 hs1
    simpa [applyOps, List.foldl_cons] using hrest

def sessT : Session :=
  { sessionId := "s1", userId := "u1", conversationHistory := [],
    parsedIntent := emptyIntent, tags := [], qrCode := none, qrExpiry := none,
    status := .transferred }

theorem status_monotonic_witness :
    ∃ s', alGet (applyOps [Op.kioskIdentify "k1" "sockK", Op.mobileIdentify "u1" "sock1"]
        { sessions := [("s1", sessT)], qr := [], reg := [] }).sessions "s1" = some s'
      ∧ s'.status = .transferred :=
  status_monotonic [Op.kioskIdentify "k1" "sockK", Op.mobileIdentify "u1" "sock1"]
    { sessions := [("s1", sessT)], qr := [], reg := [] } "s1" sessT (by rfl) (by rfl)

/-- C6: `POST /api/qr/generate` — under the precondition that the session
exists (and that the signing secret is configured; the Token Service fails
with a configuration error otherwise), it issues the token into the shared
store, writes qrCode/qrExpiry onto the Session record leaving every other
session field (status included) unchanged, and returns the token material
(qrId, QR payload to render, expiresAt, signature). -/
theorem requestTransfer_spec (mac : String → String → String)
    (secret sessionId qrId : String) (ts : Nat) (sessions : SessionDB) (qr : QRStore)
    (s : Session)
    (hsid : sessionId ≠ "") (hsec : secret ≠ "")
    (h : alGet sessions sessionId = some s) :
    handleGenerateQRRoute mac secret sessionId qrId ts sessions qr
      = ((alSet sessions sessionId
            { s with qrCode := some qrId, qrExpiry := some (ts + 300000) },
          alSet qr (qrKey qrId) { sessionId := sessionId, timestamp := ts }),
         .ok { qrId := qrId,
               qrFields := [("qrId", qrId), ("signature", mac secret (payloadString qrId sessionId ts))],
               qrData := serializeFields
                 [("qrId", qrId), ("signature", mac secret (payloadString qrId sessionId ts))],
               expiresAt := ts + 300000,
               signature := mac secret (payloadString qrId sessionId ts) })
    ∧ alGet (handleGenerateQRRoute mac secret sessionId qrId ts sessions qr).1.1 sessionId
        = some { s with qrCode := some qrId, qrExpiry := some (ts + 300000) } := by
  have hmain : handleGenerateQRRoute mac secret sessionId qrId ts sessions qr
      = ((alSet sessions sessionId
            { s with qrCode := some qrId, qrExpiry := some (ts + 300000) },
          alSet qr (qrKey qrId) { sessionId := sessionId, timestamp := ts }),
         .ok { qrId := qrId,
               qrFields := [("qrId", qrId), ("signature", mac secret (payloadString qrId sessionId ts))],
               qrData := serializeFields
                 [("qrId", qrId), ("signature", mac secret (payloadString qrId sessionId ts))],
               expiresAt := ts + 300000,
               signature := mac secret (payloadString qrId sessionId ts) }) := by
    unfold handleGenerateQRRoute
    rw [if_neg hsid, h]
    unfold generateQR
    rw [if_neg hsid, if_neg hsec]
  refine ⟨hmain, ?_⟩
  rw [hmain]
  exact alGet_set_self _ _ _

def sessA : Session :=
  { sessionId := "s1", userId := "u1", conversationHistory := [],
    parsedIntent := emptyIntent, tags := [], qrCode := none, qrExpiry := none,
    status := .active }

theorem requestTransfer_spec_witness :
    handleGenerateQRRoute macAB "k" "s1" "q1" 0 [("s1", sessA)] []
      = ((alSet [("s1", sessA)] "s1"
            { sessA with qrCode := some "q1", qrExpiry := some 300000 },
          alSet [] (qrKey "q1") { sessionId := "s1", timestamp := 0 }),
         .ok { qrId := "q1",
               qrFields := [("qrId", "q1"), ("signature", macAB "k" (payloadString "q1" "s1" 0))],
               qrData := serializeFields
                 [("qrId", "q1"), ("signature", macAB "k" (payloadString "q1" "s1" 0))],
               expiresAt := 300000,
               signature := macAB "k" (payloadString "q1" "s1" 0) })
    ∧ alGet (handleGenerateQRRoute macAB "k" "s1" "q1" 0 [("s1", sessA)] []).1.1 "s1"
        = some { sessA with qrCode := some "q1", qrExpiry := some 300000 } :=
  requestTransfer_spec macAB "k" "s1" "q1" 0 [("s1", sessA)] [] sessA
    (by decide) (by decide) (by rfl)

/-- C7: last-registered-wins — after registering `(mobile, u, hA)` and then
`(mobile, u, hB)`, looking the user up resolves to `hB` only (provided `hB`
is a live socket of the namespace, as `getSocketByUserId` resolves the stored
id against the namespace's socket map). -/
theorem registry_overwrite (st : SysState) (live : List String) (u hA hB : String)
    (hu : u ≠ "") (hlive : hB ∈ live) :
    getSocketByUserId (handleMobileIdentify u hB (handleMobileIdentify u hA st)).reg live u
      = some hB := by
  unfold handleMobileIdentify getSocketByUserId
  rw [if_neg hu, if_neg hu, if_neg hu]
  simp only []
  rw [alGet_set_self]
  simp [hlive]

theorem registry_overwrite_witness :
    getSocketByUserId
      (handleMobileIdentify "u1" "sockB"
        (handleMobileIdentify "u1" "sockA" { sessions := [], qr := [], reg := [] })).reg
      ["sockA", "sockB"] "u1" = some "sockB" :=
  registry_overwrite { sessions := [], qr := [], reg := [] } ["sockA", "sockB"]
    "u1" "sockA" "sockB" (by decide) (by decide)

/-- The pipeline's average score is nonnegative. -/
theorem avgScore_nonneg (l : List PScored) :
    0 ≤ (if l.length > 0 then ((l.map fun pc => (pc.2 : ℚ)).sum) / (l.length : ℚ) else 0) := by
  split
  · apply div_nonneg
    · apply List.sum_nonneg
      intro x hx
      simp only [List.mem_map] at hx
      obtain ⟨pc, _, rfl⟩ := hx
      positivity
    · positivity
  · exact le_refl 0

/-- Shape of the scoring pipeline's result. -/
theorem recommendCore_shape (intent : Intent) (products : List Product) (limit : Nat) :
    (recommendCore intent products limit).products.length ≤ limit
    ∧ (recommendCore intent products limit).explanations.length
        = (recommendCore intent products limit).products.length
    ∧ 0 ≤ (recommendCore intent products limit).confidence
    ∧ (recommendCore intent products limit).confidence ≤ 1 := by
  simp only [recommendCore]
  refine ⟨?_, ?_, ?_, ?_⟩
  · exact List.length_take_le _ _
  · simp
  · exact le_min (by norm_num) (div_nonneg (avgScore_nonneg _) (by norm_num))
  · exact min_le_left _ _

/-- C8: the recommender never fails its caller — for every intent and limit
it returns at most `limit` products, exactly one explanation per returned
product, and a confidence in `[0, 1]`; on a null/non-object intent, a store
error, or an empty catalog it returns `{products: [], explanations: [],
confidence: 0}` instead of raising. -/
theorem getRecommendations_total (db : Except String (List Product))
    (intentOpt : Option Intent) (limit : Nat) :
    (getRecommendations db intentOpt limit).products.length ≤ limit
    ∧ (getRecommendations db intentOpt limit).explanations.length
        = (getRecommendations db intentOpt limit).products.length
    ∧ 0 ≤ (getRecommendations db intentOpt limit).confidence
    ∧ (getRecommendations db intentOpt limit).confidence ≤ 1
    ∧ (intentOpt = none → getRecommendations db intentOpt limit = emptyRec)
    ∧ (∀ e, db = Except.error e → getRecommendations db intentOpt limit = emptyRec)
    ∧ (db = Except.ok [] → getRecommendations db intentOpt limit = emptyRec) := by
  cases intentOpt with
  | none =>
    refine ⟨?_, ?_, ?_, ?_, fun _ => rfl, fun e he => rfl, fun hdb => rfl⟩ <;>
      simp [getRecommendations, emptyRec]
  | some intent =>
    cases db with
    | error e =>
      refine ⟨?_, ?_, ?_, ?_, fun hno => Option.noConfusion hno, fun e' he => rfl,
        fun hdb => Except.noConfusion hdb⟩ <;> simp [getRecommendations, emptyRec]
    | ok catalog =>
      by_cases hp : (catalog.filter fun p => p.inStock && decide (p.stockCount > 0)).isEmpty
      · have hval : getRecommendations (Except.ok catalog) (some intent) limit = emptyRec := by
          simp only [getRecommendations]
          rw [if_pos hp]
        refine ⟨?_, ?_, ?_, ?_, fun hno => Option.noConfusion hno,
          fun e' he => Except.noConfusion he, fun hdb => hval⟩ <;> simp [hval, emptyRec]
      · have hval : getRecommendations (Except.ok catalog) (some intent) limit
            = recommendCore intent
                (catalog.filter fun p => p.inStock && decide (p.stockCount > 0)) limit := by
          simp only [getRecommendations]
          rw [if_neg hp]
        have hshape := recommendCore_shape intent
          (catalog.filter fun p => p.inStock && decide (p.stockCount > 0)) limit
        refine ⟨?_, ?_, ?_, ?_, fun hno => Option.noConfusion hno,
          fun e' he => Except.noConfusion he, ?_⟩
        · rw [hval]; exact hshape.1
        · rw [hval]; exact hshape.2.1
        · rw [hval]; exact hshape.2.2.1
        · rw [hval]; exact hshape.2.2.2
        · intro hdb
          cases hdb
          simp [List.filter] at hp

def weddingMsg : String := "wedding in summer, budget $200"

set_option maxRecDepth 100000 in
set_option maxHeartbeats 1000000 in
theorem wedding_parse_occasion (n : Nat) :
    (parseUserMessage weddingMsg
      [{ text := weddingMsg, sender := "user", timestamp := n }]).intent.occasion
      = some "wedding" := rfl

set_option maxRecDepth 100000 in
set_option maxHeartbeats 1000000 in
theorem wedding_parse_season (n : Nat) :
    (parseUserMessage weddingMsg
      [{ text := weddingMsg, sender := "user", timestamp := n }]).intent.season
      = some "summer" := rfl

set_option maxRecDepth 100000 in
set_option maxHeartbeats 1000000 in
theorem wedding_parse_budget (n : Nat) :
    (parseUserMessage weddingMsg
      [{ text := weddingMsg, sender := "user", timestamp := n }]).intent.budget
      = .num 200 := rfl

set_option maxRecDepth 100000 in
set_option maxHeartbeats 2000000 in
theorem wedding_parse_tags (n : Nat) :
    (parseUserMessage weddingMsg
      [{ text := weddingMsg, sender := "user", timestamp := n }]).tags
      = ["#Wedding", "#Wedding", "#Casual", "#SummerWear"] := rfl

set_option maxRecDepth 100000 in
set_option maxHeartbeats 1000000 in
theorem wedding_cast_occasion (n : Nat) :
    (castParsedIntent (parseUserMessage weddingMsg
      [{ text := weddingMsg, sender := "user", timestamp := n }]).intent).occasion
      = some "wedding" := rfl

set_option maxRecDepth 100000 in
set_option maxHeartbeats 1000000 in
theorem wedding_cast_budget (n : Nat) :
    (castParsedIntent (parseUserMessage weddingMsg
      [{ text := weddingMsg, sender := "user", timestamp := n }]).intent).budget
      = .num 200 := rfl

/-- C9: the end-to-end scenario — on a session with empty prior history, the
mobile message "wedding in summer, budget $200" is parsed by the intent
extractor to `occasion = wedding`, `season = summer`, `budget = 200` (a
number); the resulting tags `#Wedding` and `#SummerWear` are merged into the
saved session's tag set, and the message path leaves the transfer-related
fields (status, qrCode, qrExpiry) unchanged.  The saved record's
`parsedIntent` is the Mongoose-casted intent: occasion and budget are
persisted, while `season` is dropped by the schema (no `season` path in
`parsedIntentSchema`), so the stored `season` is `none`. -/
theorem wedding_scenario (catalog : Except String (List Product))
    (sid uid sockId : String) (now : Nat) (st : SysState) (s : Session)
    (hsid : sid ≠ "") (huid : uid ≠ "")
    (h : alGet st.sessions sid = some s) (hh : s.conversationHistory = []) :
    (parseUserMessage weddingMsg
        [{ text := weddingMsg, sender := "user", timestamp := now }]).intent.occasion
      = some "wedding"
    ∧ (parseUserMessage weddingMsg
        [{ text := weddingMsg, sender := "user", timestamp := now }]).intent.season
      = some "summer"
    ∧ (parseUserMessage weddingMsg
        [{ text := weddingMsg, sender := "user", timestamp := now }]).intent.budget
      = .num 200
    ∧ ∃ s', alGet (handleMobileMessage catalog sid uid weddingMsg sockId now st).1.sessions sid
        = some s'
      ∧ s'.parsedIntent
          = castParsedIntent (parseUserMessage weddingMsg
              [{ text := weddingMsg, sender := "user", timestamp := now }]).intent
      ∧ s'.parsedIntent.occasion = some "wedding"
      ∧ s'.parsedIntent.budget = .num 200
      ∧ s'.parsedIntent.season = none
      ∧ "#Wedding" ∈ s'.tags ∧ "#SummerWear" ∈ s'.tags
      ∧ s'.status = s.status ∧ s'.qrCode = s.qrCode ∧ s'.qrExpiry = s.qrExpiry := by
  refine ⟨wedding_parse_occasion now, wedding_parse_season now, wedding_parse_budget now, ?_⟩
  unfold handleMobileMessage
  rw [if_neg (by simp [hsid, huid, weddingMsg])]
  simp only [h, hh, List.nil_append]
  refine ⟨_, alGet_set_self _ _ _, rfl, ?_, ?_, rfl, ?_, ?_, rfl, rfl, rfl⟩
  · exact wedding_cast_occasion now
  · exact wedding_cast_budget now
  · exact mem_mergeTags_right _ _ _ (by rw [wedding_parse_tags now]; simp)
  · exact mem_mergeTags_right _ _ _ (by rw [wedding_parse_tags now]; simp)

theorem wedding_scenario_witness :
    (parseUserMessage weddingMsg
        [{ text := weddingMsg, sender := "user", timestamp := 0 }]).intent.occasion
      = some "wedding"
    ∧ (parseUserMessage weddingMsg
        [{ text := weddingMsg, sender := "user", timestamp := 0 }]).intent.season
      = some "summer"
    ∧ (parseUserMessage weddingMsg
        [{ text := weddingMsg, sender := "user", timestamp := 0 }]).intent.budget
      = .num 200
    ∧ ∃ s', alGet (handleMobileMessage (Except.ok []) "s1" "u1" weddingMsg "sock" 0
        { sessions := [("s1", sessA)], qr := [], reg := [] }).1.sessions "s1" = some s'
      ∧ s'.parsedIntent
          = castParsedIntent (parseUserMessage weddingMsg
              [{ text := weddingMsg, sender := "user", timestamp := 0 }]).intent
      ∧ s'.parsedIntent.occasion = some "wedding"
      ∧ s'.parsedIntent.budget = .num 200
      ∧ s'.parsedIntent.season = none
      ∧ "#Wedding" ∈ s'.tags ∧ "#SummerWear" ∈ s'.tags
      ∧ s'.status = sessA.status ∧ s'.qrCode = sessA.qrCode ∧ s'.qrExpiry = sessA.qrExpiry :=
  wedding_scenario (Except.ok []) "s1" "u1" "sock" 0
    { sessions := [("s1", sessA)], qr := [], reg := [] } sessA
    (by decide) (by decide) (by rfl) (by rfl)

/-- C10: both message-handling operations grow an existing session's tag list
monotonically and keep it duplicate-free — assuming the current list is
duplicate-free (which every handler-written list is, starting from `[]`), the
updated list is the old list with the genuinely new tags appended after it,
and contains no duplicates. -/
theorem tags_monotone (catalog : Except String (List Product))
    (sid uid msg sockId : String) (now : Nat) (st : SysState) (sessions2 : SessionDB)
    (s s2 : Session)
    (h : alGet st.sessions sid = some s) (hnd : s.tags.Nodup)
    (h2 : alGet sessions2 sid = some s2) (hnd2 : s2.tags.Nodup) :
    (∃ s' suffix,
      alGet (handleMobileMessage catalog sid uid msg sockId now st).1.sessions sid = some s'
        ∧ s'.tags = s.tags ++ suffix ∧ s'.tags.Nodup)
    ∧ (∃ s' suffix,
      alGet (handleChatMessageRoute catalog sid uid msg now sessions2).1 sid = some s'
        ∧ s'.tags = s2.tags ++ suffix ∧ s'.tags.Nodup) := by
  constructor
  · unfold handleMobileMessage
    by_cases hg : sid = "" ∨ uid = "" ∨ msg = ""
    · simp only [hg, if_true]
      exact ⟨s, [], h, by simp, hnd⟩
    · simp only [hg, if_false, h]
      obtain ⟨suffix, hsfx⟩ := mergeTags_extends s.tags
        (parseUserMessage msg (s.conversationHistory
          ++ [{ text := msg, sender := "user", timestamp := now }])).tags hnd
      exact ⟨_, suffix, alGet_set_self _ _ _, hsfx, hsfx ▸ mergeTags_nodup _ _⟩
  · unfold handleChatMessageRoute
    by_cases hg : sid = "" ∨ uid = "" ∨ msg = ""
    · simp only [hg, if_true]
      exact ⟨s2, [], h2, by simp, hnd2⟩
    · by_cases ht : trimStr msg = ""
      · simp only [hg, if_false, ht, if_true]
        exact ⟨s2, [], h2, by simp, hnd2⟩
      · simp only [hg, if_false, ht, h2]
        obtain ⟨suffix, hsfx⟩ := mergeTags_extends s2.tags
          (parseUserMessage msg (s2.conversationHistory
            ++ [{ text := msg, sender := "user", timestamp := now }])).tags hnd2
        exact ⟨_, suffix, alGet_set_self _ _ _, hsfx, hsfx ▸ mergeTags_nodup _ _⟩

theorem tags_monotone_witness :
    (∃ s' suffix,
      alGet (handleMobileMessage (Except.ok []) "s1" "u1" "hello" "sock" 0
          { sessions := [("s1", sessA)], qr := [], reg := [] }).1.sessions "s1" = some s'
        ∧ s'.tags = sessA.tags ++ suffix ∧ s'.tags.Nodup)
    ∧ (∃ s' suffix,
      alGet (handleChatMessageRoute (Except.ok []) "s1" "u1" "hello" 0
          [("s1", sessA)]).1 "s1" = some s'
        ∧ s'.tags = sessA.tags ++ suffix ∧ s'.tags.Nodup) :=
  tags_monotone (Except.ok []) "s1" "u1" "hello" "sock" 0
    { sessions := [("s1", sessA)], qr := [], reg := [] } [("s1", sessA)] sessA sessA
    (by rfl) (by simp [sessA]) (by rfl) (by simp [sessA])

end Nexus
